import Mathlib

/-!
Verification of the jsonrpc-sample repository: a JSON-RPC 2.0 dispatcher
over HTTP.  The development shallowly embeds the `rpcserver` package
(service registry, dispatcher, path/method check), the `jsonrpc2` wire
codec and the `methodcodec` variant, and proves properties of the
composed request pipeline.

Conventions of the embedding:
* JSON values are the inductive `Json`; a request body is `Option Json`,
  where `none` stands for bytes that are not syntactically valid JSON
  (including the empty body).
* Go's `strings.Split(s, sep)` for a one-character separator is
  `goSplit s sep`, defined on the character list exactly as Go defines
  it (splitting around every occurrence; `goSplit "" c = [""]`).
* Decoding a JSON value into the `serverRequest` struct follows
  `encoding/json`: the value must be an object, `jsonrpc`/`method` must
  be strings (JSON `null` leaves the zero value in place), `params` and
  `id` are raw messages whose JSON `null` yields a nil pointer, unknown
  keys are ignored and later duplicates win.  Go's additional
  case-insensitive key fallback is not exercised by any property here
  and is not modelled.
* Go struct values for RPC arguments/replies live in the small universe
  `GoType`/`GoVal` (ints, strings, flat structs), with `unmarshalInto`
  modelling `json.Unmarshal` merging into an existing value.
* An `http.ResponseWriter` interaction is summarised by the final
  `HttpOut`: the status, the headers effective when the response was
  committed (a header set after `WriteHeader`, as in
  `rpcserver.WriteError`, is not part of the sent headers), and the body.
-/

set_option autoImplicit false

namespace JsonrpcSample

/-- JSON values, the wire data model of the codec. -/
inductive Json where
  | null : Json
  | bool (b : Bool) : Json
  | num (n : Int) : Json
  | str (s : String) : Json
  | arr (elems : List Json) : Json
  | obj (fields : List (String × Json)) : Json

/-- Go `strings.Split` on a one-character separator, on character lists:
splits around every occurrence of the separator; the empty list yields
one empty chunk. -/
def splitChars (sep : Char) : List Char → List (List Char)
  | [] => [[]]
  | c :: rest =>
    if c = sep then [] :: splitChars sep rest
    else
      match splitChars sep rest with
      | [] => [[c]]
      | h :: t => (c :: h) :: t

/-- Go `strings.Split(s, sep)` for a one-character separator `sep`. -/
def goSplit (s : String) (sep : Char) : List String :=
  (splitChars sep s.data).map (fun cs => String.mk cs)

/-- Go `strings.ToLower`, character-wise (the content types involved
are ASCII). -/
def goToLower (s : String) : String := String.mk (s.data.map Char.toLower)

/-- Model of `rpcserver.LastPart` (src/method.go): last `/`-chunk of the path,
returning the path itself in the (impossible) zero-chunk case. -/
def LastPart (path : String) : String :=
  let pathWords := goSplit path '/'
  match pathWords.getLast? with
  | none => path
  | some w => w

/-- Model of `rpcserver.PathHasMethod` (src/method.go): the last `/`-chunk of the
path equals the method name. -/
def PathHasMethod (path : String) (method : String) : Bool :=
  LastPart path == method

/-- Model of `methodcodec.PathHasMethod` (src/method/methodcodec/method.go):
like `rpcserver.PathHasMethod` but an empty method name is rejected
up front. -/
def methodcodecPathHasMethod (path : String) (method : String) : Bool :=
  let pathWords := goSplit path '/'
  if method == "" || pathWords.length < 1 then false
  else (pathWords.getLast?.getD "") == method

/-- Model of `jsonrpc2.Version`. -/
def Version : String := "2.0"

/-- Wire error codes of the `jsonrpc2` package. -/
def E_PARSE : Int := -32700
def E_INVALID_REQ : Int := -32600
def E_NO_METHOD : Int := -32601
def E_BAD_PARAMS : Int := -32602
def E_INTERNAL : Int := -32603
def E_SERVER : Int := -32000

/-- Model of `jsonrpc2.serverRequest`: the decoded JSON-RPC request.  `params`
and `id` are `*json.RawMessage`; `none` is the nil pointer (member
absent or JSON `null`). -/
structure ServerRequest where
  version : String := ""
  method : String := ""
  params : Option Json := none
  id : Option Json := none

/-- One step of `json.Unmarshal` into `serverRequest`: store one object
member.  `jsonrpc`/`method` require a JSON string (`null` keeps the
current value), `params`/`id` accept anything with `null` giving a nil
pointer, unknown keys are ignored. -/
def setReqField (req : ServerRequest) (key : String) (v : Json) : Option ServerRequest :=
  if key = "jsonrpc" then
    match v with
    | .str s => some { req with version := s }
    | .null => some req
    | _ => none
  else if key = "method" then
    match v with
    | .str s => some { req with method := s }
    | .null => some req
    | _ => none
  else if key = "params" then
    match v with
    | .null => some { req with params := none }
    | _ => some { req with params := some v }
  else if key = "id" then
    match v with
    | .null => some { req with id := none }
    | _ => some { req with id := some v }
  else some req

/-- Fold `setReqField` over the object members, later duplicates
overriding earlier ones as in `encoding/json`. -/
def decodeReqFields : ServerRequest → List (String × Json) → Option ServerRequest
  | req, [] => some req
  | req, (k, v) :: rest =>
    match setReqField req k v with
    | some r => decodeReqFields r rest
    | none => none

/-- Model of `json.NewDecoder(r.Body).Decode(req)` into `serverRequest`: the
value must be a JSON object and every member must store successfully. -/
def decodeServerRequest : Json → Option ServerRequest
  | .obj fields => decodeReqFields {} fields
  | _ => none

/-- Auxiliary data attached to a `jsonrpc2.Error` (`Data interface{}`):
either the whole decoded request (`NewRequest` errors) or the raw params
payload (`ReadRequest` errors). -/
inductive ErrData where
  | reqData (r : ServerRequest) : ErrData
  | payload (p : Json) : ErrData

/-- Model of `jsonrpc2.Error`. -/
structure RpcError where
  code : Int
  message : String
  data : Option ErrData := none

/-- Model of `jsonrpc2.Codec`. -/
structure Codec where
  RespectNotifyMessages : Bool

/-- Model of `jsonrpc2.NewCodec`: notification suppression is off by default. -/
def NewCodec : Codec := { RespectNotifyMessages := false }

/-- Model of `jsonrpc2.CodecRequest`: the decoded request together with the
validation error recorded so far. -/
structure CodecRequest where
  request : ServerRequest
  err : Option RpcError
  respectNotifyMessages : Bool

/-- Model of `Codec.NewRequest` (src/jsonrpc2/codec.go): decode the body, then
check in order: parse success (else `E_PARSE`), `jsonrpc == "2.0"`
(else `E_INVALID_REQ`), non-empty `method` (else `E_NO_METHOD`), and
that the URL path ends with the method name (else `E_NO_METHOD`).
Each check short-circuits the later ones. -/
def Codec.NewRequest (c : Codec) (body : Option Json) (urlPath : String) : CodecRequest :=
  match body >>= decodeServerRequest with
  | none =>
    { request := {}
      err := some { code := E_PARSE, message := "parse error", data := some (.reqData {}) }
      respectNotifyMessages := c.RespectNotifyMessages }
  | some req =>
    let err : Option RpcError :=
      if req.version ≠ Version then
        some { code := E_INVALID_REQ, message := "jsonrpc must be " ++ Version
               data := some (.reqData req) }
      else if req.method = "" then
        some { code := E_NO_METHOD, message := "method field empty or missing"
               data := some (.reqData req) }
      else if LastPart urlPath ≠ req.method then
        some { code := E_NO_METHOD
               message := "rpc: URL.Path does not end with method Name"
               data := some (.reqData req) }
      else none
    { request := req, err := err, respectNotifyMessages := c.RespectNotifyMessages }

/-- Model of `CodecRequest.Method`: the method name, or the recorded error. -/
def CodecRequest.Method (c : CodecRequest) : Except RpcError String :=
  match c.err with
  | none => .ok c.request.method
  | some e => .error e

/-- The universe of Go types used for RPC argument and reply structs. -/
inductive GoType where
  | int : GoType
  | strT : GoType
  | structT (fields : List (String × GoType)) : GoType

/-- Go values of the types above. -/
inductive GoVal where
  | vint (i : Int) : GoVal
  | vstr (s : String) : GoVal
  | vstruct (fields : List (String × GoVal)) : GoVal

mutual
/-- The zero value of a Go type (what `reflect.New` allocates). -/
def zeroVal : GoType → GoVal
  | .int => .vint 0
  | .strT => .vstr ""
  | .structT fs => .vstruct (zeroFields fs)

/-- Zero values of a struct's fields. -/
def zeroFields : List (String × GoType) → List (String × GoVal)
  | [] => []
  | (n, t) :: rest => (n, zeroVal t) :: zeroFields rest
end

/-- Field type of a struct, by exact name. -/
def lookupFieldType : List (String × GoType) → String → Option GoType
  | [], _ => none
  | (n, t) :: rest, key => if n = key then some t else lookupFieldType rest key

/-- Current value of a struct field (defaulting, never hit in practice). -/
def getFieldVal : List (String × GoVal) → String → GoVal → GoVal
  | [], _, dflt => dflt
  | (n, v) :: rest, key, dflt => if n = key then v else getFieldVal rest key dflt

/-- Replace a struct field's value. -/
def setFieldVal : List (String × GoVal) → String → GoVal → List (String × GoVal)
  | [], _, _ => []
  | (n, v) :: rest, key, nv =>
    if n = key then (n, nv) :: rest else (n, v) :: setFieldVal rest key nv

mutual
/-- Model of `json.Unmarshal` of a JSON value into an existing Go value: `null`
leaves the value unchanged, numbers/strings must match the target type,
objects merge member-wise into structs (unknown members ignored),
anything else is a type error (`none`). -/
def unmarshalInto : GoType → GoVal → Json → Option GoVal
  | _, cur, .null => some cur
  | .int, _, .num n => some (.vint n)
  | .int, _, _ => none
  | .strT, _, .str s => some (.vstr s)
  | .strT, _, _ => none
  | .structT fts, cur, .obj kvs => unmarshalObj fts cur kvs
  | .structT _, _, _ => none

/-- Merge JSON object members into a struct value, in order. -/
def unmarshalObj : List (String × GoType) → GoVal → List (String × Json) → Option GoVal
  | _, cur, [] => some cur
  | fts, cur, (k, v) :: rest =>
    match lookupFieldType fts k with
    | none => unmarshalObj fts cur rest
    | some t =>
      match cur with
      | .vstruct fields =>
        match unmarshalInto t (getFieldVal fields k (zeroVal t)) v with
        | none => none
        | some fv => unmarshalObj fts (.vstruct (setFieldVal fields k fv)) rest
      | _ => none
end

/-- The by-position retry of `CodecRequest.ReadRequest`: unmarshal the
payload into `[1]interface{}{args}`.  A JSON array decodes its first
element into the args value (extra elements are discarded, an empty
array changes nothing); `null` changes nothing; anything else is a type
error. -/
def byPositionRetry (t : GoType) (args : GoVal) (p : Json) : Option GoVal :=
  match p with
  | .null => some args
  | .arr [] => some args
  | .arr (x :: _) => unmarshalInto t args x
  | _ => none

/-- Model of `CodecRequest.ReadRequest` (src/jsonrpc2/codec.go): with no prior
error and a present params payload, try a by-name unmarshal into the
args value; on failure retry by position; if both fail record an error
with code `E_INVALID_REQ` carrying the raw payload as data.  Returns
the updated codec request and the (possibly updated) args value. -/
def CodecRequest.ReadRequest (c : CodecRequest) (t : GoType) (args : GoVal) :
    CodecRequest × GoVal :=
  match c.err, c.request.params with
  | none, some p =>
    match unmarshalInto t args p with
    | some v => (c, v)
    | none =>
      match byPositionRetry t args p with
      | some v => (c, v)
      | none =>
        ({ c with err := some { code := E_INVALID_REQ
                                message := "json: cannot unmarshal params"
                                data := some (.payload p) } },
         args)
  | _, _ => (c, args)

/-- Model of `jsonrpc2.serverResponse`: version tag, result-or-error, echoed id. -/
structure ServerResponse where
  version : String
  result : Option GoVal := none
  error : Option RpcError := none
  id : Option Json := none

/-- A Go `error` value returned by a service method: either a
`*jsonrpc2.Error` or a plain error with only a message. -/
inductive GoError where
  | rpcErr (e : RpcError) : GoError
  | plain (msg : String) : GoError

/-- Message of a Go error (its `Error()` string). -/
def GoError.message : GoError → String
  | .rpcErr e => e.message
  | .plain m => m

/-- The envelope built by `CodecRequest.WriteResponse`: version `"2.0"`,
the reply as result, no error, the echoed request id. -/
def CodecRequest.mkResponse (c : CodecRequest) (reply : GoVal) : ServerResponse :=
  { version := Version, result := some reply, error := none, id := c.request.id }

/-- The envelope built by `CodecRequest.WriteError`: a `*jsonrpc2.Error`
is used as is, any other error is wrapped with the caller's HTTP status
as code; no result, the echoed request id. -/
def CodecRequest.mkErrorResponse (c : CodecRequest) (status : Int) (err : GoError) :
    ServerResponse :=
  let jsonErr : RpcError :=
    match err with
    | .rpcErr e => e
    | .plain m => { code := status, message := m }
  { version := Version, result := none, error := some jsonErr, id := c.request.id }

/-- Model of `CodecRequest.writeServerResponse`: a notification (nil id) with
suppression enabled writes nothing at all; otherwise the envelope is
written. -/
def CodecRequest.writeServerResponse (c : CodecRequest) (res : ServerResponse) :
    Option ServerResponse :=
  if c.request.id.isNone && c.respectNotifyMessages then none else some res

/-- Model of `rpcserver.RpcServiceMethod`: argument/reply types plus the callable
itself, modelled as a function from the argument value to the final
reply value and the returned Go error. -/
structure RpcServiceMethod where
  argsType : GoType
  replyType : GoType
  call : GoVal → GoVal × Option GoError

/-- Model of `rpcserver.RpcService`: service name and method table. -/
structure RpcService where
  name : String
  methods : List (String × RpcServiceMethod)

/-- Go map lookup in the method table. -/
def lookupMethod : List (String × RpcServiceMethod) → String → Option RpcServiceMethod
  | [], _ => none
  | (k, m) :: rest, key => if k = key then some m else lookupMethod rest key

/-- The failure outcomes of `RpcService.Get`. -/
inductive GetError where
  | illFormed (method : String) : GetError
  | noService (method : String) : GetError
  | noMethod (method : String) : GetError

/-- Model of `RpcService.Get` (src/unnamed/part_000): split the name on `.`;
any segment count other than two is ill-formed; a nil service cannot be
found; otherwise the second segment is looked up in the method table. -/
def RpcService.Get (service : Option RpcService) (method : String) :
    Except GetError RpcServiceMethod :=
  let parts := goSplit method '.'
  if parts.length ≠ 2 then .error (.illFormed method)
  else
    match service with
    | none => .error (.noService method)
    | some s =>
      match lookupMethod s.methods (parts.getD 1 "") with
      | some m => .ok m
      | none => .error (.noMethod method)

/-- Model of `rpcserver.Server`: registered codecs keyed by lowercased content
type, and the single registered service. -/
structure Server where
  codecs : List (String × Codec)
  service : Option RpcService

/-- Codec table lookup. -/
def lookupCodec : List (String × Codec) → String → Option Codec
  | [], _ => none
  | (k, c) :: rest, key => if k = key then some c else lookupCodec rest key

/-- The inbound HTTP request as the dispatcher sees it: HTTP method,
raw `Content-Type` header (empty when absent), URL path, and the body
as parsed JSON (`none` when the bytes are not valid JSON). -/
structure HttpRequest where
  method : String
  contentType : String
  urlPath : String
  body : Option Json

/-- The `Content-Type` value with any `;`-suffix (e.g. charset) stripped. -/
def contentTypeBase (ct : String) : String :=
  (goSplit ct ';').headD ct

/-- The body finally written to the response. -/
inductive Body where
  | empty : Body
  | plainText (msg : String) : Body
  | jsonEnvelope (res : ServerResponse) : Body

/-- The committed HTTP response: status, the headers effective when it
was committed, and the body. -/
structure HttpOut where
  status : Nat
  headers : List (String × String)
  body : Body

/-- Result of one dispatch: the HTTP response plus how many times the
service method was invoked. -/
structure ServeResult where
  out : HttpOut
  called : Nat

/-- Model of `rpcserver.WriteError`: an explicit status with a plain-text body.
The `Content-Type: text/plain` header is set only after `WriteHeader`,
so it is not part of the committed headers. -/
def writeErrorOut (status : Nat) (msg : String) : HttpOut :=
  { status := status, headers := [], body := .plainText msg }

/-- The protocol-level headers added by `writeServerResponse` when it
actually writes. -/
def jsonContentTypeHeader : String × String :=
  ("Content-Type", "application/json; charset=utf-8")

/-- The tail of `Server.ServeHTTP` after codec selection:
`Codec.NewRequest` validation (400 plain text on any recorded error),
empty-method and path/method re-checks (400/404 plain text), method
resolution via `RpcService.Get` (404 plain text), parameter binding
(codec error envelope, the nosniff header not yet set), then invocation
and encoding of the outcome with `x-content-type-options: nosniff` set
before the body is written. -/
def dispatchWithCodec (s : Server) (codec : Codec) (r : HttpRequest) : ServeResult :=
  let codecReq := codec.NewRequest r.body r.urlPath
  match codecReq.Method with
  | .error errMethod =>
    { out := writeErrorOut 400 errMethod.message, called := 0 }
  | .ok methodName =>
    if methodName = "" then
      { out := writeErrorOut 400 "rpc: method field should not be empty", called := 0 }
    else if ¬ PathHasMethod r.urlPath methodName then
      { out := writeErrorOut 404
          ("rpc: URL.Path does not end with methodName " ++ methodName)
        called := 0 }
    else
      match RpcService.Get s.service methodName with
      | .error _ =>
        { out := writeErrorOut 404 ("rpc: cannot resolve " ++ methodName), called := 0 }
      | .ok methodSpec =>
        let rr := codecReq.ReadRequest methodSpec.argsType (zeroVal methodSpec.argsType)
        let codecReq2 := rr.1
        let args := rr.2
        match codecReq2.err with
        | some errRead =>
          match codecReq2.writeServerResponse
              (codecReq2.mkErrorResponse 400 (.rpcErr errRead)) with
          | none =>
            { out := { status := 200, headers := [], body := .empty }, called := 0 }
          | some written =>
            { out := { status := 200, headers := [jsonContentTypeHeader]
                       body := .jsonEnvelope written }
              called := 0 }
        | none =>
          let outcome := methodSpec.call args
          let nosniff : String × String := ("x-content-type-options", "nosniff")
          match outcome.2 with
          | none =>
            match codecReq2.writeServerResponse (codecReq2.mkResponse outcome.1) with
            | none =>
              { out := { status := 200, headers := [nosniff], body := .empty }
                called := 1 }
            | some written =>
              { out := { status := 200, headers := [nosniff, jsonContentTypeHeader]
                         body := .jsonEnvelope written }
                called := 1 }
          | some e =>
            match codecReq2.writeServerResponse (codecReq2.mkErrorResponse 400 e) with
            | none =>
              { out := { status := 200, headers := [nosniff], body := .empty }
                called := 1 }
            | some written =>
              { out := { status := 200, headers := [nosniff, jsonContentTypeHeader]
                         body := .jsonEnvelope written }
                called := 1 }

/-- Model of `Server.ServeHTTP` (src/unnamed/part_000) composed with the
`jsonrpc2` codec: POST check (405), content-type negotiation (415,
with the single-codec default when the header is empty), then the
dispatch tail `dispatchWithCodec`. -/
def Server.serveHTTP (s : Server) (r : HttpRequest) : ServeResult :=
  if r.method ≠ "POST" then
    { out := writeErrorOut 405 ("rpc: POST method required, received " ++ r.method)
      called := 0 }
  else
    let contentType := contentTypeBase r.contentType
    let codecOpt : Option Codec :=
      if contentType = "" ∧ s.codecs.length = 1 then
        (s.codecs.head?).map Prod.snd
      else lookupCodec s.codecs (goToLower contentType)
    match codecOpt with
    | none =>
      { out := writeErrorOut 415 ("rpc: unrecognized Content-Type: " ++ contentType)
        called := 0 }
    | some codec => dispatchWithCodec s codec r

/-! ### Concrete instances, from the repository's own test fixture
(`MockRpcObject` in src/server_test.go). -/

/-- Model of `MockArgs`: a struct with int fields `A` and `B`. -/
def mockArgsType : GoType := .structT [("A", .int), ("B", .int)]

/-- Model of `MockReply`: a struct with one int field `Value`. -/
def mockReplyType : GoType := .structT [("Value", .int)]

/-- Read an int field out of a struct field list. -/
def intFieldOf : List (String × GoVal) → String → Int
  | [], _ => 0
  | (k, v) :: rest, key =>
    if k = key then
      match v with
      | .vint i => i
      | _ => 0
    else intFieldOf rest key

/-- Read an int field out of a struct value. -/
def structIntField : GoVal → String → Int
  | .vstruct fields, key => intFieldOf fields key
  | _, _ => 0

/-- Model of `MockRpcObject.Action` (src/server_test.go): on `A == B` return a
plain error leaving the reply at its zero value; otherwise set
`Value = A - B`. -/
def actionCall (args : GoVal) : GoVal × Option GoError :=
  let a := structIntField args "A"
  let b := structIntField args "B"
  if a = b then (zeroVal mockReplyType, some (.plain "expected error A==B"))
  else (.vstruct [("Value", .vint (a - b))], none)

/-- The method descriptor the registry builds for `Action`. -/
def actionSpec : RpcServiceMethod :=
  { argsType := mockArgsType, replyType := mockReplyType, call := actionCall }

/-- The registered mock service: one method, keyed `"Action"`. -/
def mockService : RpcService :=
  { name := "MockRpcObject", methods := [("Action", actionSpec)] }

/-- A server with the `jsonrpc2` codec registered for
`application/json`, over a given service, with a chosen
notification-suppression flag. -/
def mkJsonServer (svc : Option RpcService) (flag : Bool) : Server :=
  { codecs := [("application/json", { RespectNotifyMessages := flag })]
    service := svc }

/-- A server over the mock service with the `jsonrpc2` codec registered
for `application/json`, with a chosen notification-suppression flag. -/
def mkMockServer (flag : Bool) : Server :=
  mkJsonServer (some mockService) flag

/-- A well-formed JSON-RPC 2.0 request body naming `method`, with
optional id and params members. -/
def mkBody (method : String) (id : Option Json) (params : Option Json) : Json :=
  .obj ([("jsonrpc", Json.str "2.0"), ("method", Json.str method)]
    ++ (match id with | some j => [("id", j)] | none => [])
    ++ (match params with | some j => [("params", j)] | none => []))

/-- A POST with JSON content type to `urlPath` carrying `body`. -/
def mkPost (urlPath : String) (body : Json) : HttpRequest :=
  { method := "POST", contentType := "application/json", urlPath := urlPath
    body := some body }

/-- The `params` object of the sanity scenario. -/
def paramsA5B2 : Json := .obj [("A", Json.num 5), ("B", Json.num 2)]

/-- Params making the mock method return an error (`A == B`). -/
def paramsA5B5 : Json := .obj [("A", Json.num 5), ("B", Json.num 5)]

/-! ### Boolean inspectors used in statements. -/

/-- Whether a resolution outcome is a success. -/
def resolveOk : Except GetError RpcServiceMethod → Bool
  | .ok _ => true
  | .error _ => false

/-- Whether a resolution outcome is the unknown-service error. -/
def resolveNoService : Except GetError RpcServiceMethod → Bool
  | .error (.noService _) => true
  | _ => false

/-- Whether the method table has an entry under `key`. -/
def hasKey : List (String × RpcServiceMethod) → String → Bool
  | [], _ => false
  | (k, _) :: rest, key => k == key || hasKey rest key

/-- Whether a header list carries the given header with the given value. -/
def hasHeader (hdrs : List (String × String)) (k v : String) : Bool :=
  hdrs.any (fun p => p.1 == k && p.2 == v)

/-- Whether a body is a plain-text (transport-level) one. -/
def isPlainTextBody : Body → Bool
  | .plainText _ => true
  | _ => false

/-- Whether a body is a JSON-RPC envelope. -/
def isEnvelopeBody : Body → Bool
  | .jsonEnvelope _ => true
  | _ => false

/-- Whether nothing was written as the body. -/
def isEmptyBody : Body → Bool
  | .empty => true
  | _ => false

/-! ### Fixed dispatch scenarios (from src/server_test.go). -/

/-- The sanity scenario of `Test_01_Sanity`: POST to `/svc/Action` with
a well-formed request naming `Action`, id `1`, params `A=5, B=2`. -/
def sanityRequest : HttpRequest :=
  mkPost "/svc/Action" (mkBody "Action" (some (Json.num 1)) (some paramsA5B2))

/-- Dispatching the sanity scenario on the default server. -/
def sanityResult : ServeResult := (mkMockServer false).serveHTTP sanityRequest

/-- The path/method mismatch scenario of `Test_05`: posted to
`/svc/Wrong` while the body names `Action`. -/
def mismatchRequest : HttpRequest :=
  mkPost "/svc/Wrong" (mkBody "Action" (some (Json.num 1)) (some paramsA5B2))

/-- Dispatching the mismatch scenario on the default server. -/
def mismatchResult : ServeResult := (mkMockServer false).serveHTTP mismatchRequest

/-- A fully resolvable request: the body names the dotted
`MockRpcObject.Action` and the path ends with that same token, so
`RpcService.Get` finds the method. -/
def dottedOkRequest : HttpRequest :=
  mkPost "/jsonrpc/v1/MockRpcObject.Action"
    (mkBody "MockRpcObject.Action" (some (Json.num 1)) (some paramsA5B2))

/-- A resolvable notification (no id) whose invocation succeeds. -/
def notifOkRequest : HttpRequest :=
  mkPost "/jsonrpc/v1/MockRpcObject.Action"
    (mkBody "MockRpcObject.Action" none (some paramsA5B2))

/-- A resolvable notification (no id) whose invocation returns an
error (`A == B`). -/
def notifErrRequest : HttpRequest :=
  mkPost "/jsonrpc/v1/MockRpcObject.Action"
    (mkBody "MockRpcObject.Action" none (some paramsA5B5))

/-- A resolvable request whose params payload (a JSON string) fails
both the by-name and the by-position bind. -/
def badParamsRequest : HttpRequest :=
  mkPost "/jsonrpc/v1/MockRpcObject.Action"
    (mkBody "MockRpcObject.Action" (some (Json.num 1)) (some (Json.str "x")))

/-- Dispatching the failing-bind scenario on the default server. -/
def badParamsResult : ServeResult := (mkMockServer false).serveHTTP badParamsRequest

/-! ### Fixed codec-request values for binding/notification checks. -/

/-- A validated codec request whose params payload is the JSON string
`"x"`, which no struct bind accepts. -/
def strParamsCr : CodecRequest :=
  { request := { version := "2.0", method := "M", params := some (Json.str "x"), id := none }
    err := none, respectNotifyMessages := false }

/-- A notification codec request with suppression enabled. -/
def notifCrOn : CodecRequest :=
  { request := { version := "2.0", method := "M", params := none, id := none }
    err := none, respectNotifyMessages := true }

/-- A notification codec request with suppression disabled. -/
def notifCrOff : CodecRequest :=
  { request := { version := "2.0", method := "M", params := none, id := none }
    err := none, respectNotifyMessages := false }

/-- A codec request with an id present and suppression enabled. -/
def idCrOn : CodecRequest :=
  { request := { version := "2.0", method := "M", params := none, id := some (Json.num 1) }
    err := none, respectNotifyMessages := true }

/-- A nondescript envelope to feed the write path. -/
def dummyResponse : ServerResponse := { version := Version }

/-! ### Helper lemmas about the Go string split. -/

/-- Go `strings.Split` never yields an empty chunk list. -/
theorem splitChars_ne_nil (sep : Char) (l : List Char) : splitChars sep l ≠ [] := by
  induction l with
  | nil => simp [splitChars]
  | cons c rest ih =>
    simp only [splitChars]
    split
    · simp
    · cases h : splitChars sep rest with
      | nil => simp
      | cons hd tl => simp

/-- The function `goSplit` never yields an empty chunk list. -/
theorem goSplit_ne_nil (s : String) (sep : Char) : goSplit s sep ≠ [] := by
  simpa [goSplit] using splitChars_ne_nil sep s.data

/-- The result of `LastPart` is the last chunk of the split. -/
theorem lastPart_eq (path : String) :
    LastPart path = (goSplit path '/').getLast?.getD path := by
  unfold LastPart
  cases h : (goSplit path '/').getLast? <;> simp [h]

/-- Splitting a separator-free list yields the one chunk. -/
theorem splitChars_of_not_mem (sep : Char) (l : List Char) (h : sep ∉ l) :
    splitChars sep l = [l] := by
  induction l with
  | nil => rfl
  | cons c rest ih =>
    simp only [List.mem_cons, not_or] at h
    have hc : ¬ c = sep := fun e => h.1 e.symm
    simp only [splitChars, if_neg hc, ih h.2]

/-- Splitting around a separator that does not occur in the front part
peels the front part off as the first chunk. -/
theorem splitChars_append (sep : Char) (la lb : List Char) (h : sep ∉ la) :
    splitChars sep (la ++ sep :: lb) = la :: splitChars sep lb := by
  induction la with
  | nil => simp [splitChars]
  | cons c rest ih =>
    simp only [List.mem_cons, not_or] at h
    have hc : ¬ c = sep := fun e => h.1 e.symm
    simp only [List.cons_append, splitChars, if_neg hc, List.append_eq, ih h.2]

/-- Splitting `a ++ "." ++ b` for dot-free `a` and `b` yields exactly
the two chunks `a` and `b`. -/
theorem goSplit_dot_append (a b : String) (ha : '.' ∉ a.data) (hb : '.' ∉ b.data) :
    goSplit (a ++ "." ++ b) '.' = [a, b] := by
  have hdata : (a ++ "." ++ b).data = a.data ++ '.' :: b.data := by
    simp [String.data_append]
  simp [goSplit, hdata, splitChars_append '.' a.data b.data ha,
    splitChars_of_not_mem '.' b.data hb]

/-- The check `hasKey` is definedness of the method-table lookup. -/
theorem hasKey_eq_isSome (ms : List (String × RpcServiceMethod)) (key : String) :
    hasKey ms key = (lookupMethod ms key).isSome := by
  induction ms with
  | nil => rfl
  | cons p rest ih =>
    obtain ⟨k, m⟩ := p
    by_cases h : k = key <;> simp [hasKey, lookupMethod, h, ih]

/-! ### Claim C2: decode validation order. -/

/-- C2: `Codec.NewRequest` validates in a fixed short-circuit order:
any body that does not decode into the `serverRequest` shape (including
the absent/empty body) yields code `-32700`; any decoded body whose
version differs from `"2.0"` yields `-32600` regardless of its other
fields; a decoded body with version `"2.0"` and an empty or missing
method yields `-32601`.  Each clause holds for every path and every
remaining field, which is exactly the short-circuit: an earlier failure
fixes the outcome before the later checks are reached. -/
theorem C2_newRequest_validation_order :
    (∀ (c : Codec) (b : Option Json) (path : String),
      (b >>= decodeServerRequest) = none →
      ((c.NewRequest b path).err).map RpcError.code = some E_PARSE)
    ∧ (∀ (c : Codec) (b : Option Json) (req : ServerRequest) (path : String),
      (b >>= decodeServerRequest) = some req → req.version ≠ "2.0" →
      ((c.NewRequest b path).err).map RpcError.code = some E_INVALID_REQ)
    ∧ (∀ (c : Codec) (b : Option Json) (req : ServerRequest) (path : String),
      (b >>= decodeServerRequest) = some req → req.version = "2.0" → req.method = "" →
      ((c.NewRequest b path).err).map RpcError.code = some E_NO_METHOD) := by
  refine ⟨?_, ?_, ?_⟩
  · intro c b path h
    simp [Codec.NewRequest, h]
  · intro c b req path h hv
    simp [Codec.NewRequest, h, Version, hv]
  · intro c b req path h hv hm
    simp [Codec.NewRequest, h, Version, hv, hm]

/-- C2 witness: the three validation outcomes at concrete bodies — no
body at all, the empty JSON object, and an object carrying only the
version member. -/
theorem C2_newRequest_validation_order_witness :
    ((NewCodec.NewRequest none "/svc/Action").err).map RpcError.code = some E_PARSE
    ∧ ((NewCodec.NewRequest (some (Json.obj [])) "/svc/Action").err).map RpcError.code
        = some E_INVALID_REQ
    ∧ ((NewCodec.NewRequest (some (Json.obj [("jsonrpc", Json.str "2.0")]))
        "/svc/Action").err).map RpcError.code = some E_NO_METHOD :=
  ⟨C2_newRequest_validation_order.1 NewCodec none "/svc/Action" rfl,
   C2_newRequest_validation_order.2.1 NewCodec (some (Json.obj [])) {} "/svc/Action"
     rfl (by decide),
   C2_newRequest_validation_order.2.2 NewCodec (some (Json.obj [("jsonrpc", Json.str "2.0")]))
     { version := "2.0" } "/svc/Action" rfl rfl rfl⟩

/-! ### Claim C3: double bind failure. -/

/-- C3 counterexample: for a params payload (the JSON string `"x"`)
that fails both the by-name and the by-position bind against
`MockArgs`, `ReadRequest` records code `-32600` (`E_INVALID_REQ`), not
`-32602` (`E_BAD_PARAMS`) as the claim states. -/
theorem C3_bind_failure_code_counterexample :
    unmarshalInto mockArgsType (zeroVal mockArgsType) (Json.str "x") = none
    ∧ byPositionRetry mockArgsType (zeroVal mockArgsType) (Json.str "x") = none
    ∧ ((strParamsCr.ReadRequest mockArgsType (zeroVal mockArgsType)).1.err).map RpcError.code
        = some E_INVALID_REQ
    ∧ ((strParamsCr.ReadRequest mockArgsType (zeroVal mockArgsType)).1.err).map RpcError.code
        ≠ some E_BAD_PARAMS := by
  refine ⟨rfl, rfl, rfl, ?_⟩
  decide

/-- C3 (amended): when both the by-name bind and the by-position retry
fail, `ReadRequest` records an error whose code is `E_INVALID_REQ`
(`-32600`) — not `-32602` — and whose data field carries the original
raw payload. -/
theorem C3_bind_failure_reports_payload :
    ∀ (c : CodecRequest) (t : GoType) (args : GoVal) (p : Json),
      c.err = none → c.request.params = some p →
      unmarshalInto t args p = none → byPositionRetry t args p = none →
      ∃ e, (c.ReadRequest t args).1.err = some e
        ∧ e.code = E_INVALID_REQ ∧ e.data = some (ErrData.payload p) := by
  intro c t args p h1 h2 h3 h4
  simp only [CodecRequest.ReadRequest, h1, h2, h3, h4]
  exact ⟨_, rfl, rfl, rfl⟩

/-- C3 witness: the amended statement at the concrete failing payload. -/
theorem C3_bind_failure_reports_payload_witness :
    ∃ e, (strParamsCr.ReadRequest mockArgsType (zeroVal mockArgsType)).1.err = some e
      ∧ e.code = E_INVALID_REQ ∧ e.data = some (ErrData.payload (Json.str "x")) :=
  C3_bind_failure_reports_payload strParamsCr mockArgsType (zeroVal mockArgsType)
    (Json.str "x") rfl rfl rfl rfl

/-! ### Claim C4: shape of `RpcService.Get`. -/

/-- C4 counterexample: `".Action"` contains an empty (service) segment,
yet `Get` resolves it successfully against the mock table — the claim
that every input containing an empty segment fails is false. -/
theorem C4_get_empty_segment_counterexample :
    goSplit ".Action" '.' = ["", "Action"]
    ∧ resolveOk (RpcService.Get (some mockService) ".Action") = true := by
  constructor
  · decide
  · rfl

/-- C4 (amended): `Get` fails with the malformed-name error exactly
when the `.`-split segment count is not two; for a well-formed name it
resolves purely by looking the second segment up in the method table —
an empty first segment still resolves, and an empty method segment
fails only as an unknown method. -/
theorem C4_get_shape :
    (∀ (svc : Option RpcService) (m : String), (goSplit m '.').length ≠ 2 →
      RpcService.Get svc m = .error (.illFormed m))
    ∧ (∀ (s : RpcService) (m : String), (goSplit m '.').length = 2 →
      lookupMethod s.methods ((goSplit m '.').getD 1 "") = none →
      RpcService.Get (some s) m = .error (.noMethod m))
    ∧ (∀ (s : RpcService) (m : String) (ms : RpcServiceMethod), (goSplit m '.').length = 2 →
      lookupMethod s.methods ((goSplit m '.').getD 1 "") = some ms →
      RpcService.Get (some s) m = .ok ms) := by
  refine ⟨?_, ?_, ?_⟩
  · intro svc m h
    simp only [RpcService.Get, if_pos h]
  · intro s m h hl
    have h2 : ¬ (goSplit m '.').length ≠ 2 := by simp [h]
    simp only [RpcService.Get, if_neg h2, hl]
  · intro s m ms h hl
    have h2 : ¬ (goSplit m '.').length ≠ 2 := by simp [h]
    simp only [RpcService.Get, if_neg h2, hl]

/-- C4 witness: the three outcomes at concrete names against the mock
table. -/
theorem C4_get_shape_witness :
    RpcService.Get (some mockService) "Action" = .error (.illFormed "Action")
    ∧ RpcService.Get (some mockService) "MockRpcObject.Nope"
        = .error (.noMethod "MockRpcObject.Nope")
    ∧ RpcService.Get (some mockService) "MockRpcObject.Action" = .ok actionSpec :=
  ⟨C4_get_shape.1 (some mockService) "Action" (by decide),
   C4_get_shape.2.1 mockService "MockRpcObject.Nope" (by decide) rfl,
   C4_get_shape.2.2 mockService "MockRpcObject.Action" actionSpec (by decide) rfl⟩

/-! ### Claim C6: envelope invariant. -/

/-- C6: every envelope built by `WriteResponse` has version `"2.0"`,
exactly the result member populated (with the reply), no error, and the
request's id; every envelope built by `WriteError` has version `"2.0"`,
no result, exactly the error member populated, and the request's id. -/
theorem C6_envelope_invariant :
    (∀ (c : CodecRequest) (reply : GoVal),
      (c.mkResponse reply).version = Version
      ∧ (c.mkResponse reply).result = some reply
      ∧ (c.mkResponse reply).error = none
      ∧ (c.mkResponse reply).id = c.request.id)
    ∧ (∀ (c : CodecRequest) (status : Int) (e : GoError),
      (c.mkErrorResponse status e).version = Version
      ∧ (c.mkErrorResponse status e).result = none
      ∧ ((c.mkErrorResponse status e).error).isSome = true
      ∧ (c.mkErrorResponse status e).id = c.request.id) := by
  refine ⟨fun c reply => ⟨rfl, rfl, rfl, rfl⟩, fun c status e => ⟨rfl, rfl, ?_, rfl⟩⟩
  cases e <;> rfl

/-! ### Claim C7: notification semantics. -/

/-- C7: a request without id writes nothing when suppression is on (for
success and error envelopes alike, since `writeServerResponse` is the
single write path), the constructor default is suppression off, a
disabled flag always writes, a present id always writes; and through
the full dispatcher a resolvable notification still invokes the method
exactly once, with an empty body exactly when suppression is on, while
a request with an id always gets an envelope. -/
theorem C7_notification_suppression :
    (∀ (c : CodecRequest) (res : ServerResponse),
      c.request.id = none → c.respectNotifyMessages = true →
      c.writeServerResponse res = none)
    ∧ NewCodec.RespectNotifyMessages = false
    ∧ (∀ (c : CodecRequest) (res : ServerResponse),
      c.respectNotifyMessages = false → c.writeServerResponse res = some res)
    ∧ (∀ (c : CodecRequest) (res : ServerResponse) (j : Json),
      c.request.id = some j → c.writeServerResponse res = some res)
    ∧ (∀ flag : Bool,
      ((mkMockServer flag).serveHTTP notifOkRequest).called = 1
      ∧ ((mkMockServer flag).serveHTTP notifErrRequest).called = 1
      ∧ (flag = true →
          isEmptyBody ((mkMockServer flag).serveHTTP notifOkRequest).out.body = true
          ∧ isEmptyBody ((mkMockServer flag).serveHTTP notifErrRequest).out.body = true)
      ∧ (flag = false →
          isEnvelopeBody ((mkMockServer flag).serveHTTP notifOkRequest).out.body = true
          ∧ isEnvelopeBody ((mkMockServer flag).serveHTTP notifErrRequest).out.body = true)
      ∧ isEnvelopeBody ((mkMockServer flag).serveHTTP dottedOkRequest).out.body = true) := by
  refine ⟨?_, rfl, ?_, ?_, ?_⟩
  · intro c res h1 h2
    simp [CodecRequest.writeServerResponse, h1, h2]
  · intro c res h
    simp [CodecRequest.writeServerResponse, h]
  · intro c res j h
    simp [CodecRequest.writeServerResponse, h]
  · intro flag
    cases flag with
    | false =>
      refine ⟨rfl, rfl, ?_, ?_, rfl⟩
      · intro h
        exact absurd h (by decide)
      · intro h
        exact ⟨rfl, rfl⟩
    | true =>
      refine ⟨rfl, rfl, ?_, ?_, rfl⟩
      · intro h
        exact ⟨rfl, rfl⟩
      · intro h
        exact absurd h (by decide)

/-- C7 witness: each clause of the suppression behaviour at concrete
codec requests and one full notification dispatch. -/
theorem C7_notification_suppression_witness :
    notifCrOn.writeServerResponse dummyResponse = none
    ∧ NewCodec.RespectNotifyMessages = false
    ∧ notifCrOff.writeServerResponse dummyResponse = some dummyResponse
    ∧ idCrOn.writeServerResponse dummyResponse = some dummyResponse
    ∧ ((mkMockServer true).serveHTTP notifOkRequest).called = 1
    ∧ isEmptyBody ((mkMockServer true).serveHTTP notifErrRequest).out.body = true :=
  ⟨C7_notification_suppression.1 notifCrOn dummyResponse rfl rfl,
   C7_notification_suppression.2.1,
   C7_notification_suppression.2.2.1 notifCrOff dummyResponse rfl,
   C7_notification_suppression.2.2.2.1 idCrOn dummyResponse (Json.num 1) rfl,
   (C7_notification_suppression.2.2.2.2 true).1,
   ((C7_notification_suppression.2.2.2.2 true).2.2.1 rfl).2⟩

/-! ### Claim C8: the two path/method checks. -/

/-- C8 counterexample: at `path = ""`, `method = ""` the two
`PathHasMethod` variants disagree (`rpcserver` accepts, `methodcodec`
rejects); and at `path = "/Action/"`, `method = "Action"` both are
false although the final non-empty segment equals the method — both
the agreement and the stated characterisation fail. -/
theorem C8_pathHasMethod_counterexample :
    (PathHasMethod "" "" = true ∧ methodcodecPathHasMethod "" "" = false)
    ∧ (PathHasMethod "/Action/" "Action" = false
       ∧ methodcodecPathHasMethod "/Action/" "Action" = false) := by
  decide

/-- C8 (amended): for every non-empty method name the two variants
agree, and both are true exactly when the final `/`-delimited segment
of the path — which may be empty — equals the method name.  (They
diverge only for the empty method name, which `methodcodec` rejects
outright.) -/
theorem C8_pathHasMethod_agree :
    ∀ (path m : String), m ≠ "" →
      PathHasMethod path m = methodcodecPathHasMethod path m
      ∧ (PathHasMethod path m = true ↔ (goSplit path '/').getLast?.getD path = m) := by
  intro path m hm
  cases hlast : (goSplit path '/').getLast? with
  | none =>
    exact absurd (List.getLast?_eq_none_iff.mp hlast) (goSplit_ne_nil path '/')
  | some w =>
    have hmb : (m == "") = false := by simp [hm]
    have hlen : ¬ ((goSplit path '/').length < 1) := by
      have := List.length_pos.mpr (goSplit_ne_nil path '/')
      omega
    constructor
    · unfold PathHasMethod methodcodecPathHasMethod
      rw [lastPart_eq, hlast]
      simp [hmb, hlen, hlast]
    · unfold PathHasMethod
      rw [lastPart_eq, hlast]
      simp

/-- C8 witness: agreement and characterisation at the sanity path. -/
theorem C8_pathHasMethod_agree_witness :
    PathHasMethod "/svc/Action" "Action" = methodcodecPathHasMethod "/svc/Action" "Action"
    ∧ (PathHasMethod "/svc/Action" "Action" = true
       ↔ (goSplit "/svc/Action" '/').getLast?.getD "/svc/Action" = "Action") :=
  C8_pathHasMethod_agree "/svc/Action" "Action" (by decide)

/-! ### Claim C10: the service segment is ignored. -/

/-- C10 counterexample: the claim quantifies over all strings `a`, but
for `a = "x.y"` (which contains a dot) `Get (a ++ "." ++ b)` fails as
ill-formed even though `b = "Action"` is a key of the table. -/
theorem C10_get_counterexample :
    hasKey mockService.methods "Action" = true
    ∧ resolveOk (RpcService.Get (some mockService) ("x.y" ++ "." ++ "Action")) = false := by
  decide

/-- C10 (amended): for dot-free `a` (possibly empty) and dot-free `b`,
`Get (a ++ "." ++ b)` succeeds exactly when `b` is a key of the method
table — the service segment is never compared — and for a non-nil
service the unknown-service outcome is unreachable for every input. -/
theorem C10_get_ignores_service_segment :
    (∀ (s : RpcService) (a b : String), '.' ∉ a.data → '.' ∉ b.data →
      resolveOk (RpcService.Get (some s) (a ++ "." ++ b)) = hasKey s.methods b)
    ∧ (∀ (s : RpcService) (m : String),
      resolveNoService (RpcService.Get (some s) m) = false) := by
  constructor
  · intro s a b ha hb
    have hsplit := goSplit_dot_append a b ha hb
    rw [hasKey_eq_isSome]
    simp only [RpcService.Get, hsplit, List.length_cons, List.length_nil]
    cases hl : lookupMethod s.methods b <;> simp [hl, resolveOk]
  · intro s m
    by_cases h : (goSplit m '.').length = 2
    · have h2 : ¬ (goSplit m '.').length ≠ 2 := by simp [h]
      simp only [RpcService.Get, if_neg h2]
      cases hl : lookupMethod s.methods ((goSplit m '.').getD 1 "") <;>
        simp [hl, resolveNoService]
    · simp only [RpcService.Get, if_pos h]
      rfl

/-- C10 witness: the amended statement at the mock table, both for a
name built from dot-free segments and for an arbitrary name. -/
theorem C10_get_ignores_service_segment_witness :
    resolveOk (RpcService.Get (some mockService) ("MockRpcObject" ++ "." ++ "Action"))
      = hasKey mockService.methods "Action"
    ∧ resolveNoService (RpcService.Get (some mockService) "Whatever") = false :=
  ⟨C10_get_ignores_service_segment.1 mockService "MockRpcObject" "Action"
     (by decide) (by decide),
   C10_get_ignores_service_segment.2 mockService "Whatever"⟩

/-! ### Claim C1: the sanity scenario. -/

/-- C1 (code evidence): the sanity scenario — POST `/svc/Action` with a
well-formed body naming `Action`, id 1, params `A=5, B=2`, against the
registered mock service — is rejected by the dispatcher with HTTP 404
and a plain-text body, and the method is never invoked: `ServeHTTP`
hands the bare method name to `RpcService.Get`, which demands a dotted
`Service.Method` name.  The repository's own `Test_01_Sanity` expects
HTTP 200 with result `Value = 3` and one invocation on this exact
input. -/
theorem C1_sanity_scenario_rejected :
    sanityResult.out.status = 404
    ∧ sanityResult.called = 0
    ∧ isPlainTextBody sanityResult.out.body = true
    ∧ goSplit "Action" '.' = ["Action"] :=
  ⟨rfl, rfl, rfl, by decide⟩

/-! ### Claim C5: path/method mismatch. -/

/-- C5 counterexample: the mismatch scenario — POST `/svc/Wrong` with a
well-formed body naming `Action`, JSON content type registered — is
answered with HTTP 400, not 404 as claimed: the repository's `jsonrpc2`
codec detects the mismatch inside `NewRequest`, so `ServeHTTP` takes
its generic 400 path before its own 404 path check is reached. -/
theorem C5_mismatch_status_counterexample :
    mismatchResult.out.status = 400
    ∧ mismatchResult.out.status ≠ 404
    ∧ isPlainTextBody mismatchResult.out.body = true
    ∧ mismatchResult.called = 0 :=
  ⟨rfl, by decide, rfl, rfl⟩

/-- Reduction of the negotiation prefix: a POST with JSON content type
against a server with the `jsonrpc2` codec registered for
`application/json` always reaches the dispatch tail with that codec. -/
theorem serveHTTP_json_post (svc : Option RpcService) (flag : Bool) (r : HttpRequest)
    (hm : r.method = "POST") (hct : contentTypeBase r.contentType = "application/json") :
    (mkJsonServer svc flag).serveHTTP r
      = dispatchWithCodec (mkJsonServer svc flag) { RespectNotifyMessages := flag } r := by
  have hpost : ¬ r.method ≠ "POST" := by simp [hm]
  simp [Server.serveHTTP, if_neg hpost, hct, mkJsonServer, lookupCodec, goToLower]

/-- C5 (amended): for every POST request with JSON content type whose
body decodes to a well-formed JSON-RPC 2.0 request naming a non-empty
method, if the last `/`-chunk of the URL path differs from the method
then the dispatcher (with the repository's `jsonrpc2` codec) responds
with a plain-text body and no JSON-RPC envelope, never invokes the
method, and the status is 400 — the mismatch is caught inside the
codec's `NewRequest`, so the dispatcher's own 404 branch for this
condition is not the one that fires. -/
theorem C5_mismatch_rejected_without_invocation :
    ∀ (svc : Option RpcService) (flag : Bool) (r : HttpRequest) (req : ServerRequest),
      r.method = "POST" →
      contentTypeBase r.contentType = "application/json" →
      (r.body >>= decodeServerRequest) = some req →
      req.version = "2.0" → req.method ≠ "" →
      LastPart r.urlPath ≠ req.method →
      ((mkJsonServer svc flag).serveHTTP r).out.status = 400
      ∧ isPlainTextBody ((mkJsonServer svc flag).serveHTTP r).out.body = true
      ∧ isEnvelopeBody ((mkJsonServer svc flag).serveHTTP r).out.body = false
      ∧ ((mkJsonServer svc flag).serveHTTP r).called = 0 := by
  intro svc flag r req hm hct hb hv hme hpath
  rw [serveHTTP_json_post svc flag r hm hct]
  have h1 : ¬ (req.version ≠ Version) := by simp [Version, hv]
  simp only [dispatchWithCodec, Codec.NewRequest, hb, if_neg h1, if_neg hme, if_pos hpath,
    CodecRequest.Method]
  simp [writeErrorOut, isPlainTextBody, isEnvelopeBody]

/-- C5 witness: the amended statement at the concrete mismatch
scenario. -/
theorem C5_mismatch_rejected_without_invocation_witness :
    ((mkJsonServer (some mockService) false).serveHTTP mismatchRequest).out.status = 400
    ∧ isPlainTextBody
        ((mkJsonServer (some mockService) false).serveHTTP mismatchRequest).out.body = true
    ∧ isEnvelopeBody
        ((mkJsonServer (some mockService) false).serveHTTP mismatchRequest).out.body = false
    ∧ ((mkJsonServer (some mockService) false).serveHTTP mismatchRequest).called = 0 :=
  C5_mismatch_rejected_without_invocation (some mockService) false mismatchRequest
    { version := "2.0", method := "Action", params := some paramsA5B2
      id := some (Json.num 1) }
    rfl rfl rfl rfl (by decide) (by decide)

/-! ### Claim C9: the nosniff header. -/

/-- C9 counterexample: the parameter-binding-error envelope is written
without `x-content-type-options: nosniff`: in `ServeHTTP` the header is
set only after the `ReadRequest` early return. -/
theorem C9_nosniff_missing_counterexample :
    isEnvelopeBody badParamsResult.out.body = true
    ∧ hasHeader badParamsResult.out.headers "x-content-type-options" "nosniff" = false :=
  ⟨rfl, rfl⟩

/-- C9 (amended): every response the dispatcher commits after actually
invoking the method — the success envelope and the business-error
envelope, and equally the suppressed-notification empty response —
carries `x-content-type-options: nosniff`, set before the body is
written; the parameter-binding-error envelope, written before the
header is set, does not. -/
theorem C9_nosniff_after_invocation :
    ∀ (s : Server) (r : HttpRequest), (s.serveHTTP r).called = 1 →
      hasHeader (s.serveHTTP r).out.headers "x-content-type-options" "nosniff" = true := by
  intro s r h
  suffices haux : ∀ (res : ServeResult), s.serveHTTP r = res →
      res.called = 1 →
      hasHeader res.out.headers "x-content-type-options" "nosniff" = true by
    exact haux _ rfl h
  intro res hres hcalled
  unfold Server.serveHTTP dispatchWithCodec at hres
  repeat' first
    | split at hres
    | dsimp only at hres
  all_goals subst hres
  all_goals first
    | rfl
    | exact absurd hcalled (by simp)

/-- C9 witness: the nosniff header on the concrete successful
dispatch. -/
theorem C9_nosniff_after_invocation_witness :
    ((mkMockServer false).serveHTTP dottedOkRequest).called = 1
    ∧ hasHeader ((mkMockServer false).serveHTTP dottedOkRequest).out.headers
        "x-content-type-options" "nosniff" = true :=
  ⟨rfl, C9_nosniff_after_invocation (mkMockServer false) dottedOkRequest rfl⟩

end JsonrpcSample
